import Mathlib

/-!
Verification development for the quality-control report application
(`src/app.py`).  The application records QC inspection reports
(`InformeQC`, built from `Seccion` / `ChecklistItem` records), persists
each report as a JSON snapshot plus a rendered PDF under a per-identifier
folder (`guardar_informe`, `construir_pdf`), and rebuilds a searchable
listing by scanning the stored JSON files (`cargar_informes` and the
search filter of `pagina_consultar`).

The development shallowly embeds that code: JSON documents become an
inductive `Json` value type, the filesystem becomes an explicit `FS`
state (a directory set plus a path-indexed file map), and the save path
is expressed as a list of filesystem operations so that failure part-way
through a save can be analysed.  Python string primitives used by the
code (`str.strip`, `x or y`, `str.lower`, lexicographic comparison,
`Path.with_suffix`) are modelled character-exactly on `List Char`.
-/

namespace QCApp

/-! ## Python string primitives -/

/-- Model of Python `str.strip()`: remove leading and trailing whitespace. -/
def pyStrip (s : String) : String :=
  String.mk (((s.toList.dropWhile Char.isWhitespace).reverse.dropWhile
    Char.isWhitespace).reverse)

/-- Model of the Python expression `s or d` for strings: the empty string is
falsy, so an empty `s` yields `d`. -/
def pyOr (s d : String) : String :=
  if s = "" then d else s

/-- Model of Python `str.lower` on one character (ASCII range, which covers
the case-folding relied on by the search of the application). -/
def pyLowerChar (c : Char) : Char :=
  if 65 ≤ c.toNat ∧ c.toNat ≤ 90 then Char.ofNat (c.toNat + 32) else c

/-- Case-insensitive character equality, as used by a case-folded match. -/
def charEqCI (a b : Char) : Bool :=
  pyLowerChar a == pyLowerChar b

/-- Lexicographic `≤` on character lists by code point, the comparison Python
uses for strings (and hence the comparison behind the `sort_values`
call of the index on the fixed-width timestamp column). -/
def strLeB : List Char → List Char → Bool
  | [], _ => true
  | _ :: _, [] => false
  | a :: as, b :: bs =>
    if a.toNat < b.toNat then true
    else if b.toNat < a.toNat then false
    else strLeB as bs

theorem strLeB_total : ∀ x y : List Char, strLeB x y = true ∨ strLeB y x = true := by
  intro x
  induction x with
  | nil => intro y; left; rfl
  | cons a as ih =>
    intro y
    cases y with
    | nil => right; rfl
    | cons b bs =>
      rcases Nat.lt_trichotomy a.toNat b.toNat with h | h | h
      · left; simp [strLeB, h]
      · rcases ih bs with h2 | h2
        · left; simp [strLeB, h, h2]
        · right; simp [strLeB, h, h2]
      · right; simp [strLeB, h, Nat.lt_asymm h]

theorem strLeB_trans :
    ∀ x y z : List Char, strLeB x y = true → strLeB y z = true → strLeB x z = true := by
  intro x
  induction x with
  | nil => intro y z _ _; rfl
  | cons a as ih =>
    intro y z hxy hyz
    cases y with
    | nil => simp [strLeB] at hxy
    | cons b bs =>
      cases z with
      | nil => simp [strLeB] at hyz
      | cons c cs =>
        simp only [strLeB] at hxy hyz ⊢
        by_cases hab : a.toNat < b.toNat
        · by_cases hbc : b.toNat < c.toNat
          · simp [Nat.lt_trans hab hbc]
          · by_cases hcb : c.toNat < b.toNat
            · simp [hbc, hcb] at hyz
            · have hbc2 : b.toNat = c.toNat := Nat.le_antisymm (Nat.le_of_not_lt hcb) (Nat.le_of_not_lt hbc)
              simp [hbc2 ▸ hab]
        · by_cases hba : b.toNat < a.toNat
          · simp [hab, hba] at hxy
          · have hab2 : a.toNat = b.toNat := Nat.le_antisymm (Nat.le_of_not_lt hba) (Nat.le_of_not_lt hab)
            by_cases hbc : b.toNat < c.toNat
            · simp [hab2 ▸ hbc]
            · by_cases hcb : c.toNat < b.toNat
              · simp [hbc, hcb] at hyz
              · have hbc2 : b.toNat = c.toNat := Nat.le_antisymm (Nat.le_of_not_lt hcb) (Nat.le_of_not_lt hbc)
                simp only [hab, hba, if_neg, ite_false] at hxy
                simp only [hbc, hcb, if_neg, ite_false] at hyz
                simp [hab2.trans hbc2, ih bs cs hxy hyz]

/-! ## JSON values

`json.dump` / `json.load` from the Python standard library are a faithful
round trip between JSON values and file bytes, so the embedding works at
the level of JSON values: a stored file either holds a JSON value or holds
bytes that do not parse. -/

/-- JSON values, the unit of (de)serialization handled by `json.dump` and
`json.load` in the source. -/
inductive Json where
  | null
  | jbool (b : Bool)
  | jnum (n : Int)
  | jstr (s : String)
  | jarr (xs : List Json)
  | jobj (fields : List (String × Json))
deriving Repr

/-- Lookup of a key in a JSON object field list (first occurrence wins,
matching Python dict semantics where keys are unique). -/
def jLookup (fields : List (String × Json)) (k : String) : Option Json :=
  (fields.find? (fun e => e.1 == k)).map Prod.snd

/-- Model of Python `data.get(k, "")` on a parsed JSON object: a missing key
yields the empty string. -/
def pyDictGet (fields : List (String × Json)) (k : String) : Json :=
  (jLookup fields k).getD (.jstr "")

/-- Key lookup on a `Json` value: only objects have keys; this models the
attribute access `data.get` which raises on non-dict values. -/
def jGetJ : Json → String → Option Json
  | .jobj fields, k => jLookup fields k
  | _, _ => none

/-- Keys of a JSON object, in order. -/
def jKeys : Json → List String
  | .jobj fields => fields.map Prod.fst
  | _ => []

/-- Whether a JSON value is a string. -/
def Json.isStr : Json → Bool
  | .jstr _ => true
  | _ => false

/-- String content of a JSON value, empty for non-strings; used only as the
comparison key where all compared values are known to be strings. -/
def keyChars : Json → List Char
  | .jstr s => s.toList
  | _ => []

/-! ## Data model (src/app.py lines 22-43) -/

/-- One checklist row, mirroring the `ChecklistItem` dataclass
(descripcion, estado default "", observacion default ""). -/
structure ChecklistItem where
  descripcion : String
  estado : String := ""
  observacion : String := ""
deriving DecidableEq, Repr

/-- One report section, mirroring the `Seccion` dataclass. -/
structure Seccion where
  titulo : String
  items : List ChecklistItem := []
  observacion_general : String := ""
deriving DecidableEq, Repr

/-- One QC report, mirroring the `InformeQC` dataclass; field order matters
because `asdict` serializes fields in declaration order. -/
structure InformeQC where
  identificador : String
  modelo : String
  cliente : String
  fecha_inspeccion : String
  fecha_fabricacion : String
  documento : String
  secciones : List Seccion
  creado_en : String
deriving DecidableEq, Repr

/-- The fixed section/item catalog from `secciones_por_defecto`
(src/app.py lines 45-86). -/
def secciones_por_defecto : List Seccion :=
  [ { titulo := "REVISIONES ELÉCTRICAS",
      items :=
        [ { descripcion := "Consumo total (0.7A – 0.9A)" },
          { descripcion := "Revisión de cortocircuitos" },
          { descripcion := "Revisión visual de conexiones" },
          { descripcion := "Tensión de alimentación del procesador" } ] },
    { titulo := "REVISIONES DE SOFTWARE",
      items :=
        [ { descripcion := "Conexión WiFi" },
          { descripcion := "Señal de Apagar con fuente de alimentación" },
          { descripcion := "Conexión Ethernet" },
          { descripcion := "Señal de Reinicio con fuente de alimentación" },
          { descripcion := "Configuración de fecha y hora" },
          { descripcion := "Lectura CAN" },
          { descripcion := "Configuración" },
          { descripcion := "Descarga de datos automática" } ] },
    { titulo := "REVISIONES DE HARDWARE",
      items :=
        [ { descripcion := "Tornillos conector militar 19 pines" },
          { descripcion := "Temperatura (70 – 80 ºC)" },
          { descripcion := "Tornillos conector militar 6 pines" },
          { descripcion := "Revisión visual de la carcasa" },
          { descripcion := "Tornillos ventilador" },
          { descripcion := "Funcionamiento del ventilador" },
          { descripcion := "Tornillos disipador" },
          { descripcion := "Colocación de las baterías" },
          { descripcion := "Tornillos carcasa" },
          { descripcion := "Revisión de soldaduras" },
          { descripcion := "Tornillo placa relé" },
          { descripcion := "Revisión de cableado" } ] } ]

/-! ## Serialization: `asdict` (dataclasses) as used by `json.dump(asdict(informe), ...)` -/

/-- `asdict` on a `ChecklistItem`: field names in declaration order. -/
def asdict_item (it : ChecklistItem) : Json :=
  .jobj [("descripcion", .jstr it.descripcion),
         ("estado", .jstr it.estado),
         ("observacion", .jstr it.observacion)]

/-- `asdict` on a `Seccion`: field names in declaration order, items as an
array in list order. -/
def asdict_seccion (s : Seccion) : Json :=
  .jobj [("titulo", .jstr s.titulo),
         ("items", .jarr (s.items.map asdict_item)),
         ("observacion_general", .jstr s.observacion_general)]

/-- Field list of `asdict` on an `InformeQC` (declaration order of the
dataclass fields). -/
def asdict_fields (informe : InformeQC) : List (String × Json) :=
  [("identificador", .jstr informe.identificador),
   ("modelo", .jstr informe.modelo),
   ("cliente", .jstr informe.cliente),
   ("fecha_inspeccion", .jstr informe.fecha_inspeccion),
   ("fecha_fabricacion", .jstr informe.fecha_fabricacion),
   ("documento", .jstr informe.documento),
   ("secciones", .jarr (informe.secciones.map asdict_seccion)),
   ("creado_en", .jstr informe.creado_en)]

/-- `asdict` on an `InformeQC`, i.e. the JSON value `guardar_informe` writes. -/
def asdict_informe (informe : InformeQC) : Json :=
  .jobj (asdict_fields informe)

/-! ## Deserialization

Modelled from the spec: the repository has no function reconstructing a
full `InformeQC` from a stored JSON value (the index reads scalar fields
only), but the Artifact Store of the spec names `load(jsonPath) -> Report`,
which "deserializes" the stored JSON.  The decoders below follow the
JSON schema of the spec: an object with the eight report keys, `secciones` an
array of section objects, each with `titulo`, `items`, `observacion_general`,
and items with `descripcion`, `estado`, `observacion`. -/

/-- Decode every element of a JSON array, failing if any element fails. -/
def decodeList (f : Json → Option α) : List Json → Option (List α)
  | [] => some []
  | j :: js =>
    match f j, decodeList f js with
    | some a, some as => some (a :: as)
    | _, _ => none

/-- Modelled from the spec: decoding one checklist item from its JSON object. -/
def item_of_json (j : Json) : Option ChecklistItem :=
  match jGetJ j "descripcion", jGetJ j "estado", jGetJ j "observacion" with
  | some (.jstr d), some (.jstr e), some (.jstr o) => some ⟨d, e, o⟩
  | _, _, _ => none

/-- Modelled from the spec: decoding one section from its JSON object. -/
def seccion_of_json (j : Json) : Option Seccion :=
  match jGetJ j "titulo", jGetJ j "items", jGetJ j "observacion_general" with
  | some (.jstr t), some (.jarr xs), some (.jstr og) =>
    match decodeList item_of_json xs with
    | some its => some ⟨t, its, og⟩
    | none => none
  | _, _, _ => none

/-- Modelled from the spec: `load`, decoding a full report from the stored
JSON value. -/
def informe_of_json (j : Json) : Option InformeQC :=
  match jGetJ j "identificador", jGetJ j "modelo", jGetJ j "cliente",
        jGetJ j "fecha_inspeccion", jGetJ j "fecha_fabricacion",
        jGetJ j "documento", jGetJ j "secciones", jGetJ j "creado_en" with
  | some (.jstr i), some (.jstr m), some (.jstr c), some (.jstr fi),
    some (.jstr ff), some (.jstr d), some (.jarr xs), some (.jstr ce) =>
    match decodeList seccion_of_json xs with
    | some secs => some ⟨i, m, c, fi, ff, d, secs, ce⟩
    | none => none
  | _, _, _, _, _, _, _, _ => none

theorem item_of_json_asdict (it : ChecklistItem) :
    item_of_json (asdict_item it) = some it := rfl

theorem decodeList_map {f : Json → Option α} {g : α → Json}
    (h : ∀ a, f (g a) = some a) :
    ∀ xs : List α, decodeList f (xs.map g) = some xs := by
  intro xs
  induction xs with
  | nil => rfl
  | cons a as ih => simp [decodeList, h a, ih]

theorem seccion_of_json_asdict (s : Seccion) :
    seccion_of_json (asdict_seccion s) = some s := by
  simp [seccion_of_json, asdict_seccion, jGetJ, jLookup, List.find?,
    decodeList_map item_of_json_asdict]

theorem informe_of_json_asdict (informe : InformeQC) :
    informe_of_json (asdict_informe informe) = some informe := by
  simp [informe_of_json, asdict_informe, asdict_fields, jGetJ, jLookup, List.find?,
    decodeList_map seccion_of_json_asdict]

/-! ## Document renderer (`construir_pdf`, src/app.py lines 91-116)

The renderer assembles a list of flowables (paragraphs, spacers, tables)
from the report and hands it to reportlab.  The flowable assembly is
translated line by line; reportlab itself is outside the repository, and
the spec states that building the document from the flowable content is a
deterministic function ("same Report input always yields byte-identical
layout content"), so `DocBytes` models the built document as the page
geometry plus the flowable content.  To make the determinism claim about
ambient time expressible, the render entry point receives the current
clock reading `now` explicitly; the source body never reads the clock
(its only timestamp, `creado_en`, is a field of the report). -/

/-- One reportlab flowable as used by `construir_pdf`. -/
inductive Flowable where
  | par (text : String) (style : String)
  | spacerF (w h : Nat)
  | tableF (data : List (List String)) (colWidths : List Nat) (style : List String)
deriving DecidableEq, Repr

/-- Table style of the metadata table (line 103). -/
def estiloTablaMeta : List String :=
  ["GRID 0.5 black", "BACKGROUND (0,0)-(-1,0) whitesmoke", "VALIGN MIDDLE"]

/-- Table style of each section table (line 111). -/
def estiloTablaSeccion : List String :=
  ["GRID 0.5 black", "BACKGROUND (0,0)-(-1,0) lightgrey", "VALIGN TOP"]

/-- Rows of the metadata table (lines 96-101). -/
def filasMeta (informe : InformeQC) : List (List String) :=
  [["N.º Identificador", informe.identificador, "Fecha de inspección", informe.fecha_inspeccion],
   ["Modelo", informe.modelo, "Fecha de fabricación", informe.fecha_fabricacion],
   ["Cliente", informe.cliente, "N.º de documento", informe.documento],
   ["Creado en", informe.creado_en, "", ""]]

/-- One row of a section table (line 109): missing status/note rendered as
a dash via Python `or`. -/
def filaItem (it : ChecklistItem) : List String :=
  [it.descripcion, pyOr it.estado "-", pyOr it.observacion "-"]

/-- Flowables contributed by one section (lines 105-115). -/
def contenidoSeccion (s : Seccion) : List Flowable :=
  [.par s.titulo "Heading2",
   .tableF (["Descripción", "Estado", "Observación"] :: s.items.map filaItem)
     [260, 70, 220] estiloTablaSeccion]
  ++ (if pyStrip s.observacion_general ≠ "" then
        [.spacerF 1 6, .par ("Observaciones: " ++ s.observacion_general) "Normal"]
      else [])
  ++ [.spacerF 1 12]

/-- Full flowable content assembled by `construir_pdf` (lines 94-115). -/
def construir_contenido (informe : InformeQC) : List Flowable :=
  [.par ("Informe de Control de Calidad — " ++ informe.identificador) "Title",
   .spacerF 1 8,
   .tableF (filasMeta informe) [110, 180, 140, 120] estiloTablaMeta,
   .spacerF 1 12]
  ++ (informe.secciones.map contenidoSeccion).flatten

/-- Modelled from the spec: the document produced by reportlab via
`SimpleDocTemplate(...).build(contenido)`, determined by the
fixed page geometry (A4, 24-point margins, lines 93) and the flowable
content; the spec states the build is a deterministic function of these. -/
structure DocBytes where
  pagesize : String
  topMargin : Nat
  leftMargin : Nat
  rightMargin : Nat
  bottomMargin : Nat
  contenido : List Flowable
deriving DecidableEq, Repr

/-- `construir_pdf` (lines 91-116): the rendered document for a report.
The parameter `now` is the ambient clock reading at call time; the source
body never consults it. -/
def construir_pdf (informe : InformeQC) (_now : String) : DocBytes :=
  { pagesize := "A4", topMargin := 24, leftMargin := 24, rightMargin := 24,
    bottomMargin := 24, contenido := construir_contenido informe }

/-! ## Filesystem state and the artifact store (`guardar_informe`, lines 118-127) -/

/-- A file path relative to the storage root: directory segments plus the
file name. -/
structure FPath where
  dirs : List String
  name : String
deriving DecidableEq, Repr

/-- Content of a stored file: bytes that parse as a JSON value, rendered
document bytes, or bytes that fail to parse as JSON (truncated or
malformed artifacts). -/
inductive FileContent where
  | jsonFile (j : Json)
  | pdfFile (d : DocBytes)
  | corrupt
deriving Repr

/-- Filesystem state under the storage root: the set of directories that
exist (the root itself always exists) and the files with their content. -/
structure FS where
  dirs : List (List String)
  files : List (FPath × FileContent)

/-- Content of the file at a path, if present. -/
def fileAt (fs : FS) (p : FPath) : Option FileContent :=
  (fs.files.find? (fun e => e.1 == p)).map Prod.snd

/-- Write a file, overwriting any previous content at that path. -/
def setFile (fs : FS) (p : FPath) (c : FileContent) : FS :=
  { fs with files := fs.files.filter (fun e => !(e.1 == p)) ++ [(p, c)] }

/-- Model of `Path.mkdir(parents=True, exist_ok=True)`: create the
directory if it is not the root and does not already exist. -/
def mkdirp (fs : FS) (d : List String) : FS :=
  if d.isEmpty || fs.dirs.contains d then fs else { fs with dirs := d :: fs.dirs }

/-- One filesystem side effect of the save path. -/
inductive FsOp where
  | mkdir (d : List String)
  | write (p : FPath) (c : FileContent)

/-- Apply one filesystem operation. -/
def applyOp (fs : FS) : FsOp → FS
  | .mkdir d => mkdirp fs d
  | .write p c => setFile fs p c

/-- Run a prefix of an operation list: the operation at index `failAt`
(if any) fails and execution stops there, returning the state reached and
whether the whole list completed.  Operations already applied are not
rolled back, matching real filesystem writes. -/
def runOps : Nat → List FsOp → FS → FS × Bool
  | _, [], fs => (fs, true)
  | 0, _ :: _, fs => (fs, false)
  | n + 1, op :: rest, fs => runOps n rest (applyOp fs op)

/-- Directory segments of `base_root / informe.identificador`: in pathlib
joining with the empty string contributes no path component. -/
def dirSegs (id : String) : List String :=
  if id = "" then [] else [id]

/-- Path of the JSON snapshot `base / f"{identificador}.json"` (line 122). -/
def jsonPathOf (informe : InformeQC) : FPath :=
  ⟨dirSegs informe.identificador, informe.identificador ++ ".json"⟩

/-- Path of the rendered document `base / f"{identificador}.pdf"` (line 123). -/
def pdfPathOf (informe : InformeQC) : FPath :=
  ⟨dirSegs informe.identificador, informe.identificador ++ ".pdf"⟩

/-- The filesystem side effects of `guardar_informe` (lines 118-127), in
source order: create the per-identifier directory, write the JSON
snapshot, render and write the PDF. -/
def guardarOps (informe : InformeQC) (now : String) : List FsOp :=
  [.mkdir (dirSegs informe.identificador),
   .write (jsonPathOf informe) (.jsonFile (asdict_informe informe)),
   .write (pdfPathOf informe) (.pdfFile (construir_pdf informe now))]

/-- `guardar_informe`: apply all save side effects and return the new
state with the two artifact paths (the function performs no validation of
the identifier). -/
def guardar_informe (informe : InformeQC) (now : String) (fs : FS) :
    FS × FPath × FPath :=
  ((guardarOps informe now).foldl applyOp fs, jsonPathOf informe, pdfPathOf informe)

/-- The save workflow of `pagina_nuevo_informe` (lines 187-226) as seen by
the core: when the entered identifier strips to empty the flow reports an
error and performs no write (line 188); otherwise it builds the report
from the stripped fields with `creado_en` set to the current clock
reading and saves it via `guardar_informe`. -/
def flujo_nuevo_informe (identificador modelo cliente fecha_inspeccion
    fecha_fabricacion documento : String) (secciones : List Seccion)
    (now : String) (fs : FS) : FS × Option (FPath × FPath) :=
  if pyStrip identificador = "" then (fs, none)
  else
    let informe : InformeQC :=
      { identificador := pyStrip identificador, modelo := pyStrip modelo,
        cliente := pyStrip cliente, fecha_inspeccion := fecha_inspeccion,
        fecha_fabricacion := pyStrip fecha_fabricacion,
        documento := pyStrip documento, secciones := secciones,
        creado_en := now }
    let r := guardar_informe informe now fs
    (r.1, some (r.2.1, r.2.2))

theorem fileAt_mkdirp (fs : FS) (d : List String) (p : FPath) :
    fileAt (mkdirp fs d) p = fileAt fs p := by
  unfold mkdirp
  split <;> rfl

theorem fileAt_setFile_self (fs : FS) (p : FPath) (c : FileContent) :
    fileAt (setFile fs p c) p = some c := by
  unfold fileAt setFile
  simp only
  rw [List.find?_append]
  have hnone : (fs.files.filter (fun e => !(e.1 == p))).find? (fun e => e.1 == p) = none := by
    rw [List.find?_eq_none]
    intro e he
    have := List.of_mem_filter he
    simpa using this
  simp [hnone, List.find?]

theorem find?_filter_ne {l : List (FPath × FileContent)} {p q : FPath} (h : q ≠ p) :
    (l.filter (fun e => !(e.1 == p))).find? (fun e => e.1 == q)
      = l.find? (fun e => e.1 == q) := by
  induction l with
  | nil => rfl
  | cons e es ih =>
    cases hep : (e.1 == p) <;> cases heq : (e.1 == q)
    · simp [List.filter_cons, List.find?_cons, hep, heq, ih]
    · simp [List.filter_cons, List.find?_cons, hep, heq]
    · simp [List.filter_cons, List.find?_cons, hep, heq, ih]
    · exfalso
      have h1 : e.1 = p := by simpa using hep
      have h2 : e.1 = q := by simpa using heq
      exact h (h2 ▸ h1)

theorem fileAt_setFile_ne (fs : FS) (p q : FPath) (c : FileContent) (h : q ≠ p) :
    fileAt (setFile fs p c) q = fileAt fs q := by
  unfold fileAt setFile
  simp only
  rw [List.find?_append, find?_filter_ne h]
  have h2 : (p == q) = false := by
    simp only [beq_eq_false_iff_ne]
    exact fun hh => h hh.symm
  cases hfind : fs.files.find? (fun e => e.1 == q) <;> simp [hfind, List.find?, h2]

theorem jsonPath_ne_pdfPath (informe : InformeQC) :
    jsonPathOf informe ≠ pdfPathOf informe := by
  intro h
  have hname : informe.identificador ++ ".json" = informe.identificador ++ ".pdf" :=
    congrArg FPath.name h
  have h2 := congrArg String.data hname
  rw [String.data_append, String.data_append] at h2
  have h3 := List.append_cancel_left h2
  exact absurd h3 (by decide)

theorem fileAt_guardar_json (informe : InformeQC) (now : String) (fs : FS) :
    fileAt (guardar_informe informe now fs).1 (jsonPathOf informe)
      = some (.jsonFile (asdict_informe informe)) := by
  simp only [guardar_informe, guardarOps, List.foldl, applyOp]
  rw [fileAt_setFile_ne _ _ _ _ (jsonPath_ne_pdfPath informe),
    fileAt_setFile_self]

theorem fileAt_guardar_pdf (informe : InformeQC) (now : String) (fs : FS) :
    fileAt (guardar_informe informe now fs).1 (pdfPathOf informe)
      = some (.pdfFile (construir_pdf informe now)) := by
  simp only [guardar_informe, guardarOps, List.foldl, applyOp]
  rw [fileAt_setFile_self]

/-! ## Report index (`cargar_informes`, src/app.py lines 129-152) -/

/-- Position of the last dot in a file name, if any. -/
def lastDotPos (cs : List Char) : Option Nat :=
  ((cs.enum.filter (fun e => e.2 == '.')).map Prod.fst).getLast?

/-- Length of the pathlib suffix of a file name: the portion from the last
dot, empty when the only dot is leading (a hidden file such as `.json`
has no suffix) or trailing. -/
def pySuffixLen (cs : List Char) : Nat :=
  match lastDotPos cs with
  | some i => if 0 < i ∧ i + 1 < cs.length then cs.length - i else 0
  | none => 0

/-- Model of `Path(jf).with_suffix(".pdf")` on a file name: drop the
pathlib suffix and append `.pdf`. -/
def withSuffixPdf (name : String) : String :=
  String.mk (name.toList.take (name.toList.length - pySuffixLen name.toList)
    ++ ".pdf".toList)

/-- Whether a file name matches the glob `*.json` used by
`REPORTS_DIR.rglob("*.json")` (fnmatch: `*` may match the empty string). -/
def globJson (name : String) : Bool :=
  (".json".toList).isSuffixOf name.toList

/-- One listing row as built by `cargar_informes` (lines 135-146): the
seven scalar fields read with `data.get(key, "")` plus the containing
folder, the JSON path and the derived PDF path. -/
structure Row where
  identificador : Json
  modelo : Json
  cliente : Json
  fecha_inspeccion : Json
  fecha_fabricacion : Json
  documento : Json
  creado_en : Json
  carpeta : List String
  jsonPath : FPath
  pdfPath : FPath
deriving Repr

/-- Row built from a parsed JSON object at a path (lines 135-146); the PDF
path is derived from the JSON path with `with_suffix(".pdf")` without
checking that it exists. -/
def rowOf (p : FPath) (fields : List (String × Json)) : Row :=
  { identificador := pyDictGet fields "identificador",
    modelo := pyDictGet fields "modelo",
    cliente := pyDictGet fields "cliente",
    fecha_inspeccion := pyDictGet fields "fecha_inspeccion",
    fecha_fabricacion := pyDictGet fields "fecha_fabricacion",
    documento := pyDictGet fields "documento",
    creado_en := pyDictGet fields "creado_en",
    carpeta := p.dirs,
    jsonPath := p,
    pdfPath := ⟨p.dirs, withSuffixPdf p.name⟩ }

/-- Row produced for one stored file, if any: the file must parse as a
JSON value and that value must be an object (on any other content
`json.load` or `data.get` raises inside the `try`, and the `except`
clause skips the file). -/
def rowOfContent (p : FPath) : FileContent → Option Row
  | .jsonFile (.jobj fields) => some (rowOf p fields)
  | _ => none

/-- Rows collected by the scan loop (lines 130-148): every file matching
`*.json`, in storage order, skipping files whose processing raises. -/
def collectRows (files : List (FPath × FileContent)) : List Row :=
  files.filterMap (fun e => if globJson e.1.name then rowOfContent e.1 e.2 else none)

/-- Descending order on rows by the `creado_en` column, the comparison
behind `df.sort_values(by="creado_en", ascending=False)` when the column
holds strings. -/
def rowGE (a b : Row) : Prop :=
  strLeB (keyChars b.creado_en) (keyChars a.creado_en) = true

instance : DecidableRel rowGE :=
  fun a b =>
    inferInstanceAs (Decidable (strLeB (keyChars b.creado_en) (keyChars a.creado_en) = true))

instance : IsTotal Row rowGE :=
  ⟨fun a b => (strLeB_total (keyChars b.creado_en) (keyChars a.creado_en)).elim Or.inl Or.inr⟩

instance : IsTrans Row rowGE :=
  ⟨fun _ _ _ hab hbc => strLeB_trans _ _ _ hbc hab⟩

/-- `cargar_informes` (lines 129-152): collect one row per readable JSON
object file, then sort by `creado_en` descending unless the row set is
empty.  `pandas.sort_values` raises a `TypeError` when the column mixes
incomparable values; the embedding covers the string-valued case the
stored format guarantees and returns `none` where pandas could raise. -/
def cargar_informes (fs : FS) : Option (List Row) :=
  let rows := collectRows fs.files
  if rows.isEmpty then some []
  else if rows.all (fun r => r.creado_en.isStr) then
    some (List.insertionSort rowGE rows)
  else none

/-! ## Search filter (`pagina_consultar`, src/app.py lines 242-249)

`df.col.str.contains(buscador, case=False, na=False)` interprets the
query with `regex=True` (the pandas default) and `re.IGNORECASE`: it is a
`re.search`, not a literal substring test.  The engine below implements
the regex fragment the proofs exercise — literal characters and the `.`
wildcard — with case-insensitive character comparison; on patterns
containing no regex metacharacter at all it coincides with Python `re`,
which then degenerates to substring search. -/

/-- Regex match of a pattern against a prefix of the text: `.` matches any
character, any other character matches case-insensitively. -/
def reMatchHere : List Char → List Char → Bool
  | [], _ => true
  | _ :: _, [] => false
  | c :: ps, x :: ts => (c == '.' || charEqCI c x) && reMatchHere ps ts

/-- Model of `re.search` with `re.IGNORECASE` on the supported fragment:
the pattern may match starting at any position of the text. -/
def reSearchCI (pattern text : String) : Bool :=
  (text.toList.tails).any (fun suf => reMatchHere pattern.toList suf)

/-- Match of the query against one row column: non-string cells produce
`NaN`, which `na=False` turns into a non-match. -/
def jMatchRe (q : String) : Json → Bool
  | .jstr s => reSearchCI q s
  | _ => false

/-- The search filter (lines 243-249): an empty query string is falsy and
leaves the rows untouched; otherwise keep the rows where the query
matches the identifier, client or model column. -/
def buscar (rows : List Row) (q : String) : List Row :=
  if q = "" then rows
  else rows.filter (fun r =>
    jMatchRe q r.identificador || jMatchRe q r.cliente || jMatchRe q r.modelo)

/-- Case-insensitive prefix test, the literal-substring counterpart of
`reMatchHere`. -/
def prefixCI : List Char → List Char → Bool
  | [], _ => true
  | _ :: _, [] => false
  | a :: as, b :: bs => charEqCI a b && prefixCI as bs

/-- Case-insensitive substring containment: the needle occurs inside the
haystack. -/
def containsCI (needle hay : String) : Bool :=
  (hay.toList.tails).any (fun suf => prefixCI needle.toList suf)

/-- Column test following the claim wording: the field contains the query
as a case-insensitive substring (non-string cells never match). -/
def jMatchSubstr (q : String) : Json → Bool
  | .jstr s => containsCI q s
  | _ => false

/-- Row predicate following the claim wording: some one of the three
fields id, client, model contains the query as a case-insensitive
substring. -/
def filaCoincide (q : String) (r : Row) : Bool :=
  jMatchSubstr q r.identificador || jMatchSubstr q r.cliente || jMatchSubstr q r.modelo

/-- Code points of the Python `re` metacharacters
`. ^ $ * + ? \x7b \x7d [ ] \ | ( )`. -/
def reMetaCodes : List Nat :=
  [46, 94, 36, 42, 43, 63, 123, 125, 91, 93, 92, 124, 40, 41]

/-- A query free of regex metacharacters, for which `re.search` is a
literal (case-insensitive) substring search. -/
def sinMetacaracteres (q : String) : Bool :=
  q.toList.all (fun c => !(reMetaCodes.contains c.toNat))

theorem reMatchHere_eq_prefixCI {p : List Char} (hp : ('.' : Char) ∉ p) :
    ∀ t : List Char, reMatchHere p t = prefixCI p t := by
  induction p with
  | nil => intro t; rfl
  | cons c ps ih =>
    intro t
    have hc : (c == '.') = false := by
      simp only [beq_eq_false_iff_ne]
      intro hcc
      exact hp (hcc ▸ List.mem_cons_self c ps)
    have hps : ('.' : Char) ∉ ps := fun hm => hp (List.mem_cons_of_mem c hm)
    cases t with
    | nil => rfl
    | cons x ts => simp [reMatchHere, prefixCI, hc, ih hps]

theorem reSearchCI_eq_containsCI {q : String} (hq : ('.' : Char) ∉ q.toList)
    (s : String) : reSearchCI q s = containsCI q s := by
  unfold reSearchCI containsCI
  refine congrArg _ (funext fun suf => ?_)
  exact reMatchHere_eq_prefixCI hq suf

/-! ## Concrete sample data for witnesses and counterexamples -/

/-- The empty storage root. -/
def fsVacio : FS := ⟨[], []⟩

/-- A small single-section sample report with a non-empty identifier. -/
def informeEjemplo : InformeQC :=
  { identificador := "Q-001", modelo := "X1", cliente := "Acme",
    fecha_inspeccion := "01/01/2024", fecha_fabricacion := "01/2024",
    documento := "D-1",
    secciones := [{ titulo := "S",
                    items := [{ descripcion := "d", estado := "OK", observacion := "" }],
                    observacion_general := "ok" }],
    creado_en := "2024-01-01 10:00:00" }

/-- A report whose identifier is the empty string. -/
def informeSinId : InformeQC :=
  { identificador := "", modelo := "", cliente := "", fecha_inspeccion := "",
    fecha_fabricacion := "", documento := "", secciones := [],
    creado_en := "2024-01-01 00:00:00" }

/-- A minimal report with identifier `R1`. -/
def informeR1 : InformeQC :=
  { identificador := "R1", modelo := "", cliente := "", fecha_inspeccion := "",
    fecha_fabricacion := "", documento := "", secciones := [],
    creado_en := "2024-01-01 00:00:00" }

/-- A minimal report created in January 2024. -/
def informeEne : InformeQC :=
  { identificador := "A", modelo := "", cliente := "", fecha_inspeccion := "",
    fecha_fabricacion := "", documento := "", secciones := [],
    creado_en := "2024-01-01 10:00:00" }

/-- A minimal report created in February 2024. -/
def informeFeb : InformeQC :=
  { identificador := "B", modelo := "", cliente := "", fecha_inspeccion := "",
    fecha_fabricacion := "", documento := "", secciones := [],
    creado_en := "2024-02-01 09:00:00" }

/-- A storage root holding the January and February reports in the
standard per-identifier layout, January first in storage order. -/
def fsDos : FS :=
  ⟨[["A"], ["B"]],
   [(⟨["A"], "A.json"⟩, .jsonFile (asdict_informe informeEne)),
    (⟨["B"], "B.json"⟩, .jsonFile (asdict_informe informeFeb))]⟩

/-- A storage root holding one saved copy of `informeEjemplo`. -/
def fsUno : FS :=
  ⟨[["Q-001"]], [(⟨["Q-001"], "Q-001.json"⟩, .jsonFile (asdict_informe informeEjemplo))]⟩

/-- A storage root holding one `.json` file whose content parses as a JSON
array (valid JSON, but not an object). -/
def fsLista : FS :=
  ⟨[], [(⟨[], "x.json"⟩, .jsonFile (.jarr []))]⟩

/-- A listing row whose identifier column is `abc`. -/
def filaABC : Row :=
  { identificador := .jstr "abc", modelo := .jstr "", cliente := .jstr "",
    fecha_inspeccion := .jstr "", fecha_fabricacion := .jstr "",
    documento := .jstr "", creado_en := .jstr "", carpeta := [],
    jsonPath := ⟨[], "a.json"⟩, pdfPath := ⟨[], "a.pdf"⟩ }

/-- A listing row for a report with id `Q-001`, client `Acme`, model `X1`. -/
def filaAcme : Row :=
  { identificador := .jstr "Q-001", modelo := .jstr "X1", cliente := .jstr "Acme",
    fecha_inspeccion := .jstr "", fecha_fabricacion := .jstr "",
    documento := .jstr "", creado_en := .jstr "", carpeta := ["Q-001"],
    jsonPath := ⟨["Q-001"], "Q-001.json"⟩, pdfPath := ⟨["Q-001"], "Q-001.pdf"⟩ }

/-! ## Claims -/

/-- C1: for every report with non-empty id, `guardar_informe` stores the
serialized report as the JSON artifact, and deserializing that JSON value
(the `load` of the spec) yields a report equal to the original in every scalar,
section and item field, with section and item order preserved (the result
is the identical `InformeQC` value). -/
theorem C1_save_load_round_trip (informe : InformeQC) (now : String) (fs : FS)
    (_hid : informe.identificador ≠ "") :
    fileAt (guardar_informe informe now fs).1 (jsonPathOf informe)
      = some (.jsonFile (asdict_informe informe))
    ∧ informe_of_json (asdict_informe informe) = some informe :=
  ⟨fileAt_guardar_json informe now fs, informe_of_json_asdict informe⟩

/-- C1 witness: the round trip evaluated on a concrete report. -/
theorem C1_witness :
    fileAt (guardar_informe informeEjemplo "t" fsVacio).1 (jsonPathOf informeEjemplo)
      = some (.jsonFile (asdict_informe informeEjemplo))
    ∧ informe_of_json (asdict_informe informeEjemplo) = some informeEjemplo :=
  C1_save_load_round_trip informeEjemplo "t" fsVacio (by decide)

/-- C2 counterexample: `guardar_informe` performs no validation.  Called
with an empty identifier it does not fail; it writes the JSON snapshot to
`<root>/.json` (pathlib joins an empty component away), so a filesystem
write does occur, contradicting the claim that save with an empty id
fails before any side effect. -/
theorem C2_counterexample :
    fileAt fsVacio ⟨[], ".json"⟩ = none
    ∧ fileAt (guardar_informe informeSinId "t" fsVacio).1 ⟨[], ".json"⟩
        = some (.jsonFile (asdict_informe informeSinId)) :=
  ⟨rfl, rfl⟩

/-- C2 amended: the identifier validation lives in the UI save workflow
(`pagina_nuevo_informe`), not in `guardar_informe`: when the entered
identifier is empty or whitespace-only the workflow reports an error
before constructing the report, and performs no filesystem write; the
filesystem state is returned unchanged. -/
theorem C2_flow_rejects_blank_id (identificador modelo cliente fi ff doc : String)
    (secs : List Seccion) (now : String) (fs : FS)
    (h : pyStrip identificador = "") :
    flujo_nuevo_informe identificador modelo cliente fi ff doc secs now fs
      = (fs, none) := by
  simp [flujo_nuevo_informe, h]

/-- C2 witness: the workflow evaluated on a whitespace-only identifier. -/
theorem C2_witness :
    flujo_nuevo_informe "   " "m" "c" "f1" "f2" "d" [] "t" fsVacio = (fsVacio, none) :=
  C2_flow_rejects_blank_id "   " "m" "c" "f1" "f2" "d" [] "t" fsVacio (by decide)

/-- C3 counterexample: the save is not atomic.  Injecting a failure at the
third operation (the PDF write, e.g. a rendering error) leaves the JSON
snapshot behind in a state that previously had no artifact: the operation
failed partway, yet an artifact remains, contradicting state-unchanged-on-
error. -/
theorem C3_counterexample :
    (runOps 2 (guardarOps informeR1 "t") fsVacio).2 = false
    ∧ fileAt (runOps 2 (guardarOps informeR1 "t") fsVacio).1 (jsonPathOf informeR1)
        = some (.jsonFile (asdict_informe informeR1))
    ∧ fileAt fsVacio (jsonPathOf informeR1) = none :=
  ⟨rfl, rfl, rfl⟩

/-- C3 amended: `guardar_informe` writes the two artifacts sequentially
under the per-identifier folder — directory creation, then the JSON
snapshot, then the rendered document.  When every operation succeeds both
artifacts are present at their paths; the save is not atomic: a failure
after the JSON write (during rendering or the document write) leaves the
already-written JSON snapshot behind, with no rollback. -/
theorem C3_sequential_writes (informe : InformeQC) (now : String) (fs : FS) :
    ((runOps (guardarOps informe now).length (guardarOps informe now) fs).2 = true
      ∧ (runOps (guardarOps informe now).length (guardarOps informe now) fs).1
          = (guardar_informe informe now fs).1
      ∧ fileAt (guardar_informe informe now fs).1 (jsonPathOf informe)
          = some (.jsonFile (asdict_informe informe))
      ∧ fileAt (guardar_informe informe now fs).1 (pdfPathOf informe)
          = some (.pdfFile (construir_pdf informe now)))
    ∧ ((runOps 2 (guardarOps informe now) fs).2 = false
      ∧ fileAt (runOps 2 (guardarOps informe now) fs).1 (jsonPathOf informe)
          = some (.jsonFile (asdict_informe informe))) := by
  refine ⟨⟨?_, ?_, fileAt_guardar_json informe now fs, fileAt_guardar_pdf informe now fs⟩,
    ?_, ?_⟩
  · simp [runOps, guardarOps]
  · simp [runOps, guardarOps, guardar_informe, List.foldl]
  · simp [runOps, guardarOps]
  · show fileAt (runOps 2 (guardarOps informe now) fs).1 (jsonPathOf informe) = _
    simp only [runOps, guardarOps, applyOp]
    exact fileAt_setFile_self _ _ _

/-- C4: a listing over a root holding one report folder with a valid
report JSON and one folder whose JSON file is malformed returns exactly
the one valid row and raises no error: the unparsable file is skipped,
never aborting the scan. -/
theorem C4_listing_skips_corrupt (informe : InformeQC) (ds : List (List String))
    (p1 p2 : FPath) (h1 : globJson p1.name = true) (_h2 : globJson p2.name = true)
    (_hne : p1 ≠ p2) :
    cargar_informes ⟨ds, [(p1, .jsonFile (asdict_informe informe)), (p2, .corrupt)]⟩
      = some [rowOf p1 (asdict_fields informe)] := by
  have hsome : rowOfContent p1 (.jsonFile (asdict_informe informe))
      = some (rowOf p1 (asdict_fields informe)) := rfl
  have hnone : rowOfContent p2 .corrupt = none := rfl
  have hcollect :
      collectRows [(p1, .jsonFile (asdict_informe informe)), (p2, .corrupt)]
        = [rowOf p1 (asdict_fields informe)] := by
    simp [collectRows, List.filterMap, h1, hsome, hnone]
  have hstr : (rowOf p1 (asdict_fields informe)).creado_en = .jstr informe.creado_en := rfl
  unfold cargar_informes
  rw [hcollect]
  simp [hstr, Json.isStr, List.insertionSort, List.orderedInsert]

/-- C4 witness: the mixed valid/corrupt listing evaluated concretely. -/
theorem C4_witness :
    cargar_informes ⟨[["Q-001"], ["bad"]],
        [(⟨["Q-001"], "Q-001.json"⟩, .jsonFile (asdict_informe informeEjemplo)),
         (⟨["bad"], "bad.json"⟩, .corrupt)]⟩
      = some [rowOf ⟨["Q-001"], "Q-001.json"⟩ (asdict_fields informeEjemplo)] :=
  C4_listing_skips_corrupt informeEjemplo [["Q-001"], ["bad"]]
    ⟨["Q-001"], "Q-001.json"⟩ ⟨["bad"], "bad.json"⟩ (by decide) (by decide) (by decide)

/-- C5: whenever the listing returns rows, they are pairwise in descending
lexicographic order of the `creado_en` column; in particular, over a root
holding reports created at `2024-01-01 10:00:00` and `2024-02-01 09:00:00`,
the February report is ordered before the January one. -/
theorem C5_sorted_desc :
    (∀ (fs : FS) (rows : List Row), cargar_informes fs = some rows → rows.Pairwise rowGE)
    ∧ cargar_informes fsDos
        = some [rowOf ⟨["B"], "B.json"⟩ (asdict_fields informeFeb),
                rowOf ⟨["A"], "A.json"⟩ (asdict_fields informeEne)] := by
  constructor
  · intro fs rows h
    have h2 : (if (collectRows fs.files).isEmpty then (some [] : Option (List Row))
        else if (collectRows fs.files).all (fun r => r.creado_en.isStr) then
          some (List.insertionSort rowGE (collectRows fs.files))
        else none) = some rows := h
    split at h2
    · obtain rfl : rows = [] := (Option.some.inj h2).symm
      exact List.Pairwise.nil
    · split at h2
      · obtain rfl : rows = _ := (Option.some.inj h2).symm
        exact List.sorted_insertionSort rowGE _
      · exact Option.noConfusion h2
  · rfl

/-- C5 witness: the sortedness hypothesis discharged on the concrete
two-report root. -/
theorem C5_witness :
    List.Pairwise rowGE
      [rowOf ⟨["B"], "B.json"⟩ (asdict_fields informeFeb),
       rowOf ⟨["A"], "A.json"⟩ (asdict_fields informeEne)] :=
  C5_sorted_desc.1 fsDos _ C5_sorted_desc.2

/-- C6 counterexample: the query `a.c` is not contained as a substring in
any of the three fields of the row, yet the filter keeps the row, because
`str.contains` interprets the query as a regular expression (`regex=True`
is the pandas default) where the dot matches any character. -/
theorem C6_counterexample :
    buscar [filaABC] "a.c" = [filaABC] ∧ filaCoincide "a.c" filaABC = false :=
  ⟨rfl, rfl⟩

/-- C6 amended: the filter keeps exactly the rows where at least one of
the fields id, client, model matches the query as a case-insensitive
regular expression; for queries containing no regex metacharacter this
coincides with case-insensitive substring containment on one of the three
fields. -/
theorem C6_search_matches_any_field (rows : List Row) (q : String)
    (hq : q ≠ "") (hmeta : sinMetacaracteres q = true) :
    buscar rows q = rows.filter (filaCoincide q) := by
  have hdot : ('.' : Char) ∉ q.toList := by
    intro hc
    have h46 := List.all_eq_true.mp hmeta '.' hc
    exact absurd h46 (by decide)
  have hcol : ∀ j : Json, jMatchRe q j = jMatchSubstr q j := by
    intro j
    cases j <;> simp [jMatchRe, jMatchSubstr, reSearchCI_eq_containsCI hdot]
  unfold buscar
  rw [if_neg hq]
  apply List.filter_congr
  intro r _
  simp [filaCoincide, hcol]

/-- C6 witness: the search evaluated on a metacharacter-free query against
a row matching on the client field case-insensitively. -/
theorem C6_witness :
    buscar [filaAcme] "acme" = [filaAcme].filter (filaCoincide "acme") :=
  C6_search_matches_any_field [filaAcme] "acme" (by decide) (by decide)

/-- C7: the search filter with the empty query returns the row set
unchanged, in the same order. -/
theorem C7_empty_query_identity (rows : List Row) : buscar rows "" = rows := rfl

/-- C8: the JSON artifact written by save is an object with exactly the
eight report keys in order; its `secciones` entry is the array of section
objects, each section object has exactly the keys `titulo`, `items`,
`observacion_general` with `items` the array of item objects, and each
item object has exactly the keys `descripcion`, `estado`, `observacion`. -/
theorem C8_json_schema (informe : InformeQC) (now : String) (fs : FS) :
    fileAt (guardar_informe informe now fs).1 (jsonPathOf informe)
      = some (.jsonFile (asdict_informe informe))
    ∧ jKeys (asdict_informe informe)
        = ["identificador", "modelo", "cliente", "fecha_inspeccion",
           "fecha_fabricacion", "documento", "secciones", "creado_en"]
    ∧ jGetJ (asdict_informe informe) "secciones"
        = some (.jarr (informe.secciones.map asdict_seccion))
    ∧ (∀ s : Seccion, jKeys (asdict_seccion s) = ["titulo", "items", "observacion_general"])
    ∧ (∀ s : Seccion, jGetJ (asdict_seccion s) "items" = some (.jarr (s.items.map asdict_item)))
    ∧ (∀ it : ChecklistItem, jKeys (asdict_item it) = ["descripcion", "estado", "observacion"]) :=
  ⟨fileAt_guardar_json informe now fs, rfl, rfl, fun _ => rfl, fun _ => rfl, fun _ => rfl⟩

/-- C9: rendering is deterministic and independent of the ambient clock:
the rendered document is a function of the report alone, so two renders of
the unmodified report — whatever the clock reads at each call — produce
the identical document value (any embedded timestamp comes from the
input field `creado_en` of the report). -/
theorem C9_render_deterministic (informe : InformeQC) (now1 now2 : String) :
    construir_pdf informe now1 = construir_pdf informe now2 := rfl

/-- C10 counterexample: a `.json` file whose content parses as a JSON
array — valid JSON, but not an object — produces no listing row: the
`data.get` in the row builder raises on a non-dict value and the file is
skipped, so "every file whose content parses as JSON" is too broad. -/
theorem C10_counterexample :
    fileAt fsLista ⟨[], "x.json"⟩ = some (.jsonFile (.jarr []))
    ∧ cargar_informes fsLista = some [] :=
  ⟨rfl, rfl⟩

/-- C10 amended: the listing produces one row per file matching `*.json`
at any depth whose content parses as a JSON object (regardless of the
`rootDir/<id>/<id>.json` layout; non-object JSON is skipped), and every
document path of every row is derived from its JSON path by pathlib
`with_suffix(".pdf")`, with no check that the document file exists. -/
theorem C10_rows_from_json_objects (fs : FS) (rows : List Row)
    (h : cargar_informes fs = some rows) :
    rows.Perm (collectRows fs.files)
    ∧ (∀ r ∈ rows, r.pdfPath = ⟨r.jsonPath.dirs, withSuffixPdf r.jsonPath.name⟩) := by
  have hperm : rows.Perm (collectRows fs.files) := by
    have h2 : (if (collectRows fs.files).isEmpty then (some [] : Option (List Row))
        else if (collectRows fs.files).all (fun r => r.creado_en.isStr) then
          some (List.insertionSort rowGE (collectRows fs.files))
        else none) = some rows := h
    split at h2
    · obtain rfl : rows = [] := (Option.some.inj h2).symm
      rename_i hempty
      rw [List.isEmpty_iff.mp hempty]
    · split at h2
      · obtain rfl : rows = _ := (Option.some.inj h2).symm
        exact List.perm_insertionSort rowGE _
      · exact Option.noConfusion h2
  refine ⟨hperm, ?_⟩
  intro r hr
  have hr2 : r ∈ collectRows fs.files := hperm.mem_iff.mp hr
  rcases List.mem_filterMap.mp hr2 with ⟨e, _, hsome⟩
  obtain ⟨p, c⟩ := e
  have hsome2 : rowOfContent p c = some r := by
    by_cases hg : globJson p.name = true
    · simpa [hg] using hsome
    · rw [if_neg hg] at hsome
      exact Option.noConfusion hsome
  cases c with
  | jsonFile j =>
    cases j with
    | jobj fields =>
      obtain rfl : rowOf p fields = r := Option.some.inj hsome2
      rfl
    | null => exact Option.noConfusion hsome2
    | jbool b => exact Option.noConfusion hsome2
    | jnum n => exact Option.noConfusion hsome2
    | jstr s => exact Option.noConfusion hsome2
    | jarr xs => exact Option.noConfusion hsome2
  | pdfFile d => exact Option.noConfusion hsome2
  | corrupt => exact Option.noConfusion hsome2

/-- C10 witness: the row shape evaluated on a concrete one-report root. -/
theorem C10_witness :
    ([rowOf ⟨["Q-001"], "Q-001.json"⟩ (asdict_fields informeEjemplo)] : List Row).Perm
        (collectRows fsUno.files)
    ∧ (∀ r ∈ ([rowOf ⟨["Q-001"], "Q-001.json"⟩ (asdict_fields informeEjemplo)] : List Row),
        r.pdfPath = ⟨r.jsonPath.dirs, withSuffixPdf r.jsonPath.name⟩) :=
  C10_rows_from_json_objects fsUno _ rfl

end QCApp
